import Mathlib

/-!
Verification development for the PySigur repository (a client for the Sigur
"OIF" line-oriented access-control protocol).

The embedding translates, from the source:
  * the regular-expression based record shapes of `pysigur/models.py`
    (via a small backtracking matcher faithful to Python `re.search`
    semantics: leftmost start position, lazy `(.*?)` / greedy `(.*)`
    alternation order, `.` matching any character except newline),
  * the error-code dispatch of `pysigur/exceptions.py`,
  * the client/service request-reply layer of `pysigur/pysigur.py`
    (wire interaction modelled as an explicit queue of replies plus a log
    of sent commands; raised Python exceptions modelled as `Except`),
  * the line framer `readline` / `read_utf8` of `pysigur/pysigur.py`
    on top of a byte-level model of asyncio `StreamReader.readuntil`
    / `readexactly` (CPython asyncio/streams.py semantics, separator
    b"\r\n", bounded by the configured `limit`).
-/

set_option maxRecDepth 8000

namespace PySigur

/-! ## A backtracking regex matcher (Python `re` semantics)

Only the constructs used by the patterns in `pysigur/models.py` are
represented: literal characters, character classes, concatenation,
alternation, greedy star, lazy star and named capture groups (group
names are mapped to fixed indices; the redundant unnamed inner
parentheses of the source patterns do not affect matching and are not
represented).  `mre` is in continuation-passing style; backtracking
follows Python's order (alternation tries the left branch first, a
greedy star tries consuming first, a lazy star tries the continuation
first).  A fuel parameter keeps the definition executable; `reFuel`
is an over-approximation of the maximal recursion depth needed. -/

inductive RE where
  | eps : RE
  | cls : (Char → Bool) → RE
  | cat : RE → RE → RE
  | alt : RE → RE → RE
  | starG : RE → RE
  | starL : RE → RE
  | grp : Nat → RE → RE

/-- Captures: association list from group index to captured characters;
a later (shadowing) binding is consed on the left, mirroring how a
repeatedly matched group keeps its last value. -/
abbrev Caps := List (Nat × List Char)

def capsGet (n : Nat) : Caps → Option (List Char)
  | [] => none
  | (m, v) :: rest => if m = n then some v else capsGet n rest

/-- Extract a named group as a `String` (groups in the modelled patterns are
always bound when the whole pattern matches). -/
def capsStr (n : Nat) (caps : Caps) : String := ((capsGet n caps).getD []).asString

def mre : Nat → RE → List Char → Caps → (List Char → Caps → Option Caps) → Option Caps
  | 0, _, _, _, _ => none
  | _ + 1, .eps, cs, caps, k => k cs caps
  | _ + 1, .cls p, cs, caps, k =>
    match cs with
    | [] => none
    | c :: rest => if p c then k rest caps else none
  | fuel + 1, .cat r1 r2, cs, caps, k =>
    mre fuel r1 cs caps (fun cs2 caps2 => mre fuel r2 cs2 caps2 k)
  | fuel + 1, .alt r1 r2, cs, caps, k =>
    match mre fuel r1 cs caps k with
    | some res => some res
    | none => mre fuel r2 cs caps k
  | fuel + 1, .starG r, cs, caps, k =>
    match mre fuel r cs caps (fun cs2 caps2 =>
        if cs2.length < cs.length then mre fuel (.starG r) cs2 caps2 k else none) with
    | some res => some res
    | none => k cs caps
  | fuel + 1, .starL r, cs, caps, k =>
    match k cs caps with
    | some res => some res
    | none =>
      mre fuel r cs caps (fun cs2 caps2 =>
        if cs2.length < cs.length then mre fuel (.starL r) cs2 caps2 k else none)
  | fuel + 1, .grp n r, cs, caps, k =>
    mre fuel r cs caps (fun cs2 caps2 =>
      k cs2 ((n, cs.take (cs.length - cs2.length)) :: caps2))

def reSize : RE → Nat
  | .eps => 1
  | .cls _ => 1
  | .cat r1 r2 => reSize r1 + reSize r2 + 1
  | .alt r1 r2 => reSize r1 + reSize r2 + 1
  | .starG r => reSize r + 1
  | .starL r => reSize r + 1
  | .grp _ r => reSize r + 1

def reFuel (re : RE) (cs : List Char) : Nat := 4 * (reSize re + cs.length + 4)

/-- `re.search` scans start positions from the left; the first position at
which the pattern matches wins, captures are taken from that match. -/
def reSearchAux (re : RE) (fuel : Nat) : List Char → Option Caps
  | [] =>
    match mre fuel re [] [] (fun _ caps => some caps) with
    | some caps => some caps
    | none => none
  | c :: rest =>
    match mre fuel re (c :: rest) [] (fun _ caps => some caps) with
    | some caps => some caps
    | none => reSearchAux re fuel rest

def reSearch (re : RE) (s : List Char) : Option Caps := reSearchAux re (reFuel re s) s

/-- A literal sequence of characters (fixed text inside a pattern). -/
def slit (s : String) : RE :=
  s.toList.foldr (fun c r => RE.cat (.cls (fun a => a == c)) r) .eps

/-- Python `.` (no DOTALL flag): any character except the newline. -/
def dotC : RE := .cls (fun c => c != '\n')

/-- Python `\d` (restricted to ASCII decimal digits, which is what the wire
protocol carries). -/
def digitC : RE := .cls Char.isDigit

/-- Membership in the class `([ABCDEF]|[0-9])` of `W34Key` (uppercase hex
only); an alternation of two single-character classes consumes exactly one
character from either class, so it is represented as the merged class. -/
def isHexU (c : Char) : Bool :=
  ['A', 'B', 'C', 'D', 'E', 'F', '0', '1', '2', '3', '4', '5', '6', '7', '8', '9'].contains c

def hexU : RE := .cls isHexU

/-- Greedy `r{0,n}` (try one more repetition first, as Python does). -/
def upto : Nat → RE → RE
  | 0, _ => .eps
  | n + 1, r => .alt (.cat r (upto n r)) .eps

def chain (l : List RE) : RE := l.foldr .cat .eps

/-! ## The record-shape patterns of `pysigur/models.py` -/

/-- `SigurExceptionModel._regex`: `ERROR (?P<id>(.*?)) (?P<text>(.*?))`.
Group 0 = `id`, group 1 = `text`. -/
def reError : RE :=
  chain [slit "ERROR ", .grp 0 (.starL dotC), slit " ", .grp 1 (.starL dotC)]

/-- `SigurOK._regex`: `(?P<ok>(OK))`.  Group 0 = `ok`. -/
def reOK : RE := .grp 0 (slit "OK")

/-- `ObjectInfoEmp._regex`:
`EMP ID (?P<id>(.*?)) NAME "(?P<name>(.*))" POSITION "(?P<position>(.*))" TABNUMBER "(?P<tabnumber>(.*?))"`.
Groups: 0 = id, 1 = name, 2 = position, 3 = tabnumber. -/
def reEmp : RE :=
  chain [slit "EMP ID ", .grp 0 (.starL dotC), slit " NAME \"", .grp 1 (.starG dotC),
    slit "\" POSITION \"", .grp 2 (.starG dotC), slit "\" TABNUMBER \"",
    .grp 3 (.starL dotC), slit "\""]

/-- `ObjectInfoGuest._regex` (wire literal is `GUESTBADGE`, not `GUEST`):
`GUESTBADGE ID (?P<id>(.*?)) NAME "(?P<name>(.*))" TABNUMBER "(?P<tabnumber>(.*?))"`.
Groups: 0 = id, 1 = name, 2 = tabnumber. -/
def reGuest : RE :=
  chain [slit "GUESTBADGE ID ", .grp 0 (.starL dotC), slit " NAME \"", .grp 1 (.starG dotC),
    slit "\" TABNUMBER \"", .grp 2 (.starL dotC), slit "\""]

/-- `ObjectInfoCar._regex` (note the two spaces before `MODEL`, reproduced
from the source):
`CAR ID (?P<id>(.*?)) NUMBER "(?P<car_number>(.*))"  MODEL "(?P<car_model>(.*?))" TABNUMBER "(?P<tabnumber>(.*?))"`.
Groups: 0 = id, 1 = car_number, 2 = car_model, 3 = tabnumber. -/
def reCar : RE :=
  chain [slit "CAR ID ", .grp 0 (.starL dotC), slit " NUMBER \"", .grp 1 (.starG dotC),
    slit "\"  MODEL \"", .grp 2 (.starL dotC), slit "\" TABNUMBER \"",
    .grp 3 (.starL dotC), slit "\""]

/-- `ZoneInfo._regex`: `ID (?P<id>(.*?)) NAME "(?P<name>(.*))"`.
Groups: 0 = id, 1 = name. -/
def reZone : RE :=
  chain [slit "ID ", .grp 0 (.starL dotC), slit " NAME \"", .grp 1 (.starG dotC), slit "\""]

/-- `APInfo._regex`:
`APINFO ID (?P<id>(.*?)) NAME "(?P<name>(.*))" ZONEA (?P<zonea>(.*?)) ZONEB (?P<zoneb>(.*?)) STATE (?P<state_adm>(.*?)) (?P<state_phys>(.*))`.
Groups: 0 = id, 1 = name, 2 = zonea, 3 = zoneb, 4 = state_adm, 5 = state_phys. -/
def reAPInfo : RE :=
  chain [slit "APINFO ID ", .grp 0 (.starL dotC), slit " NAME \"", .grp 1 (.starG dotC),
    slit "\" ZONEA ", .grp 2 (.starL dotC), slit " ZONEB ", .grp 3 (.starL dotC),
    slit " STATE ", .grp 4 (.starL dotC), slit " ", .grp 5 (.starG dotC)]

/-- `W26Key._regex`: `(?P<key_a>(\d{1,3})),(?P<key_b>(\d{1,5}))`.
Groups: 0 = key_a, 1 = key_b. -/
def reW26 : RE :=
  chain [.grp 0 (.cat digitC (upto 2 digitC)), slit ",",
    .grp 1 (.cat digitC (upto 4 digitC))]

/-- `W34Key._regex`: `(?P<key>(([ABCDEF]|[0-9]){8}))`.  Group 0 = key. -/
def reW34 : RE := .grp 0 (chain (List.replicate 8 hexU))

/-- `AccessPolicyReplyEmp._regex`:
`ACCESSPOLICY_REPLY RESULT (?P<result_id>(\d{1,3})) EMPID (?P<emp_id>(\d{1,5})) MASKVERPOLICY_OFF`.
Groups: 0 = result_id, 1 = emp_id. -/
def reAPReplyEmp : RE :=
  chain [slit "ACCESSPOLICY_REPLY RESULT ", .grp 0 (.cat digitC (upto 2 digitC)),
    slit " EMPID ", .grp 1 (.cat digitC (upto 4 digitC)), slit " MASKVERPOLICY_OFF"]

/-- `AccessPolicyReplyNoEmp._regex`:
`ACCESSPOLICY_REPLY RESULT (?P<result_id>(\d{1,3})) MASKVERPOLICY_OFF`.
Group 0 = result_id. -/
def reAPReplyNoEmp : RE :=
  chain [slit "ACCESSPOLICY_REPLY RESULT ", .grp 0 (.cat digitC (upto 2 digitC)),
    slit " MASKVERPOLICY_OFF"]

/-! ## Typed records

`SigurResponse.parse` builds `self._model(**m.groupdict())`: the dataclass
fields receive the captured substrings unchanged.  Python dataclasses do not
coerce values to the annotated types, so even the fields annotated `int` in
the source (`id`, `zonea`, `zoneb`, `result_id`, `emp_id`) hold the captured
text; the embedding therefore declares every field as `String`. -/

structure SigurExceptionData where
  id : String
  text : String
deriving DecidableEq

structure ObjectInfoEmpData where
  id : String
  name : String
  position : String
  tabnumber : String
deriving DecidableEq

structure ObjectInfoGuestData where
  id : String
  name : String
  tabnumber : String
deriving DecidableEq

structure ObjectInfoCarData where
  id : String
  car_number : String
  car_model : String
  tabnumber : String
deriving DecidableEq

structure ZoneInfoData where
  id : String
  name : String
deriving DecidableEq

structure APInfoData where
  id : String
  name : String
  zonea : String
  zoneb : String
  state_adm : String
  state_phys : String
deriving DecidableEq

structure W26KeyData where
  key_a : String
  key_b : String
deriving DecidableEq

structure W34KeyData where
  key : String
deriving DecidableEq

structure AccessPolicyReplyEmpData where
  result_id : String
  emp_id : String
deriving DecidableEq

structure AccessPolicyReplyNoEmpData where
  result_id : String
deriving DecidableEq

/-- `SigurResponse.parse` for a given shape: `re.search` the pattern, build
the model from the group dictionary, `None` when the pattern does not match
(the constructor raises `SigurModelMismatch` in that case). -/
def sigurExceptionParse (s : String) : Option SigurExceptionData :=
  (reSearch reError s.toList).map fun caps => ⟨capsStr 0 caps, capsStr 1 caps⟩

def sigurOKParse (s : String) : Option String :=
  (reSearch reOK s.toList).map fun caps => capsStr 0 caps

def objectInfoEmpParse (s : String) : Option ObjectInfoEmpData :=
  (reSearch reEmp s.toList).map fun caps =>
    ⟨capsStr 0 caps, capsStr 1 caps, capsStr 2 caps, capsStr 3 caps⟩

def objectInfoGuestParse (s : String) : Option ObjectInfoGuestData :=
  (reSearch reGuest s.toList).map fun caps =>
    ⟨capsStr 0 caps, capsStr 1 caps, capsStr 2 caps⟩

def objectInfoCarParse (s : String) : Option ObjectInfoCarData :=
  (reSearch reCar s.toList).map fun caps =>
    ⟨capsStr 0 caps, capsStr 1 caps, capsStr 2 caps, capsStr 3 caps⟩

def zoneInfoParse (s : String) : Option ZoneInfoData :=
  (reSearch reZone s.toList).map fun caps => ⟨capsStr 0 caps, capsStr 1 caps⟩

def apInfoParse (s : String) : Option APInfoData :=
  (reSearch reAPInfo s.toList).map fun caps =>
    ⟨capsStr 0 caps, capsStr 1 caps, capsStr 2 caps, capsStr 3 caps,
      capsStr 4 caps, capsStr 5 caps⟩

def w26KeyParse (s : String) : Option W26KeyData :=
  (reSearch reW26 s.toList).map fun caps => ⟨capsStr 0 caps, capsStr 1 caps⟩

def w34KeyParse (s : String) : Option W34KeyData :=
  (reSearch reW34 s.toList).map fun caps => ⟨capsStr 0 caps⟩

def accessPolicyReplyEmpParse (s : String) : Option AccessPolicyReplyEmpData :=
  (reSearch reAPReplyEmp s.toList).map fun caps => ⟨capsStr 0 caps, capsStr 1 caps⟩

def accessPolicyReplyNoEmpParse (s : String) : Option AccessPolicyReplyNoEmpData :=
  (reSearch reAPReplyNoEmp s.toList).map fun caps => ⟨capsStr 0 caps⟩

/-! ## Python string primitives used by the client

`strStarts` models `str.startswith`, `dropLeading` models
`str.removeprefix`, `splitSeq` models `str.split(sep)` for a non-empty
separator, `replaceSeq` models `str.replace(old, new)` (all non-overlapping
occurrences, scanned left to right, which coincides with
`new.join(s.split(old))`). -/

def startsWithSeq : List Char → List Char → Bool
  | _, [] => true
  | [], _ :: _ => false
  | c :: s, p :: ps => c == p && startsWithSeq s ps

def strStarts (s pat : String) : Bool := startsWithSeq s.toList pat.toList

def dropLeading (s pat : String) : String :=
  if strStarts s pat then (s.toList.drop pat.toList.length).asString else s

/-- Split a list at the first occurrence of `sep`, returning the part before
and the part after the separator. -/
def breakSeq (sep : List Char) : List Char → Option (List Char × List Char)
  | [] => none
  | c :: rest =>
    if startsWithSeq (c :: rest) sep then some ([], (c :: rest).drop sep.length)
    else (breakSeq sep rest).map fun pr => (c :: pr.1, pr.2)

def splitSeqGo (sep : List Char) : Nat → List Char → List (List Char)
  | 0, s => [s]
  | f + 1, s =>
    match breakSeq sep s with
    | none => [s]
    | some (pre, post) => pre :: splitSeqGo sep f post

def splitSeq (sep s : List Char) : List (List Char) := splitSeqGo sep (s.length + 1) s

def replaceSeq (s pat rep : List Char) : List Char :=
  List.intercalate rep (splitSeq pat s)

/-- Models Python `int(s)` restricted to an optional minus sign followed by
decimal digits (the forms that can appear in the modelled replies);
`none` models the `ValueError` raised on any other text. -/
def pyInt (s : String) : Option Int :=
  let digitsVal : List Char → Int :=
    fun ds => ds.foldl (fun a c => a * 10 + (Int.ofNat (c.toNat - 48))) 0
  match s.toList with
  | [] => none
  | '-' :: ds => if ds ≠ [] ∧ ds.all Char.isDigit then some (-(digitsVal ds)) else none
  | ds => if ds ≠ [] ∧ ds.all Char.isDigit then some (digitsVal ds) else none

/-! ## The line framer (`SigurAsyncService.readline` / `read_utf8`)

Byte-level model.  A `Reader` is the stream state: the bytes already in the
asyncio `StreamReader` buffer, plus the chunks the transport will deliver on
successive `_wait_for_data` calls.  `readuntilGo` follows CPython
`asyncio.streams.StreamReader.readuntil` with `separator = b"\r\n"`
(`seplen = 2`): if the separator is found at `isep` it is returned together
with the preceding data unless `isep` exceeds the limit (`LimitOverrunError`
with `consumed = isep`); if it is not found and `buflen + 1 - seplen`
exceeds the limit, `LimitOverrunError` with `consumed = buflen - 1` is
raised; otherwise the reader waits for the next chunk, and an exhausted
chunk list models the `asyncio.wait_for` timeout of the repository's
`readline`. -/

structure Reader where
  buffer : List Nat
  chunks : List (List Nat)
deriving DecidableEq

/-- Index of the first occurrence of the byte pair 13,10 (`b"\r\n"`). -/
def findSep : List Nat → Option Nat
  | [] => none
  | [_] => none
  | a :: b :: rest =>
    if a = 13 ∧ b = 10 then some 0
    else (findSep (b :: rest)).map (· + 1)

inductive RUOut where
  | ok (data : List Nat)
  | overrun (consumed : Nat)
  | timeoutE
deriving DecidableEq

def readuntilGo (limit : Nat) : List Nat → List (List Nat) → RUOut × Reader
  | buf, [] =>
    match findSep buf with
    | some isep =>
      if limit < isep then (.overrun isep, ⟨buf, []⟩)
      else (.ok (buf.take (isep + 2)), ⟨buf.drop (isep + 2), []⟩)
    | none =>
      if 2 ≤ buf.length ∧ limit < buf.length - 1 then (.overrun (buf.length - 1), ⟨buf, []⟩)
      else (.timeoutE, ⟨buf, []⟩)
  | buf, c :: rest =>
    match findSep buf with
    | some isep =>
      if limit < isep then (.overrun isep, ⟨buf, c :: rest⟩)
      else (.ok (buf.take (isep + 2)), ⟨buf.drop (isep + 2), c :: rest⟩)
    | none =>
      if 2 ≤ buf.length ∧ limit < buf.length - 1 then
        (.overrun (buf.length - 1), ⟨buf, c :: rest⟩)
      else readuntilGo limit (buf ++ c) rest

/-- CPython `StreamReader.readexactly n`: wait until `n` bytes are buffered,
then consume exactly `n`; `none` models blocking forever / incomplete read
when the stream is exhausted first. -/
def readexactlyGo (n : Nat) : List Nat → List (List Nat) → Option (List Nat) × Reader
  | buf, chunks =>
    if n ≤ buf.length then (some (buf.take n), ⟨buf.drop n, chunks⟩)
    else
      match chunks with
      | [] => (none, ⟨buf, []⟩)
      | c :: rest => readexactlyGo n (buf ++ c) rest

inductive ReadErr where
  | timeoutErr
  | incomplete
deriving DecidableEq

/-- The loop body of `SigurAsyncService.readline`: `readuntil` until a full
line arrives, consuming `e.consumed` bytes via `readexactly` on each
`LimitOverrunError` and accumulating them.  The fuel only bounds the number
of loop iterations; `readline` supplies more fuel than the stream has bytes,
so exhaustion is unreachable (each overrun consumes at least one byte). -/
def readlineGo (limit : Nat) : Nat → List Nat → Reader → Except ReadErr (List Nat) × Reader
  | 0, _, r => (.error .timeoutErr, r)
  | fuel + 1, acc, r =>
    match readuntilGo limit r.buffer r.chunks with
    | (.ok data, r2) => (.ok (acc ++ data), r2)
    | (.overrun consumed, r2) =>
      match readexactlyGo consumed r2.buffer r2.chunks with
      | (some data, r3) => readlineGo limit fuel (acc ++ data) r3
      | (none, r3) => (.error .incomplete, r3)
    | (.timeoutE, r2) => (.error .timeoutErr, r2)

def totalBytes (r : Reader) : Nat := r.buffer.length + (r.chunks.map List.length).sum

def readline (limit : Nat) (r : Reader) : Except ReadErr (List Nat) × Reader :=
  readlineGo limit (totalBytes r + 1) [] r

/-- `bytes.removesuffix`-style strip of the b"\r\n" terminator, the byte
level counterpart of `read_utf8`'s `.removesuffix(self._EOL)` (the two
terminator bytes are the ASCII code points of "\r\n" in UTF-8, so stripping
before or after decoding agree). -/
def stripCRLF (l : List Nat) : List Nat :=
  match l.reverse with
  | 10 :: 13 :: rest => rest.reverse
  | _ => l

/-- `SigurAsyncService.read_utf8`: a full `readline`, then terminator
stripped (the UTF-8 decode step is the identity on the byte sequence in
this byte-level model). -/
def read_utf8 (limit : Nat) (r : Reader) : Except ReadErr (List Nat) × Reader :=
  match readline limit r with
  | (.ok bs, r2) => (.ok (stripCRLF bs), r2)
  | (.error e, r2) => (.error e, r2)

/-! ## Error dispatch (`pysigur/exceptions.py`)

`SigurException.__init__` looks the code up in a literal dict and raises the
class found there; a code absent from the dict makes the subscript raise
`KeyError`, which escapes (`SigurException` itself is never the exception
that propagates). -/

inductive SigurErrorKind where
  | E_1_UNABLE_TO_CONNECT_TO_DB
  | E_2_UNKNOWN_COMMAND
  | E_3_UNSUPPORTED_INTERFACE_VERSION
  | E_4_NOT_LOGGED_IN
  | E_5_GENERIC_SQL_ERROR
  | E_6_SYNTAX_ERROR
  | E_7_UNKNOWN_OBJECT
  | E_8_INTERNAL_ERROR
  | E_9_CONCURRENT_TRANSACTION_IS_IN_PROGRESS
  | E_10_UNKNOWN_ACCESS_POINT
  | E_11_AUTHENTICATION_FAILED
  | E_12_DELEGATION_IS_DISABLED
  | E_13_DELEGATION_IS_NOT_ACTIVE
  | E_14_NOT_SUBSCRIBED
  | E_15_ALREADY_SUBSCRIBED
  | E_16_SPECIFIED_KEY_ALREADY_IN_USE
  | E_17_SPECIFIED_RULE_DOESNT_EXIST
  | E_18_SPECIFIED_KEY_DOESNT_EXIST
  | E_19_UNKNOWN_VIDEO_CHANNEL
  | E_20_UNKNOWN_ALARM_LINE
  | E_21_OIF_ACCESS_IS_DISABLED_FOR_THIS_USER
  | E_22_VIDEO_IS_NOT_AVAILABLE
  | E_23_STREAM_IS_NOT_OPENED
  | E_24_FACE_RECOGNITION_IS_OFF
  | E_25_ACCESS_POLICY_ERROR
  | E_26_TIMED_OUT
  | E_27_SOCKET_BIND_FAILED
  | E_28_UNKNOWN_ERROR
  | E_29_EXTMEM_ERROR
deriving DecidableEq

/-- The 29-entry dispatch dict of `SigurException.__init__`, keyed by the
decimal string `errno`; `none` models the `KeyError` on any other key. -/
def sigurErrorTable : String → Option SigurErrorKind
  | "1" => some .E_1_UNABLE_TO_CONNECT_TO_DB
  | "2" => some .E_2_UNKNOWN_COMMAND
  | "3" => some .E_3_UNSUPPORTED_INTERFACE_VERSION
  | "4" => some .E_4_NOT_LOGGED_IN
  | "5" => some .E_5_GENERIC_SQL_ERROR
  | "6" => some .E_6_SYNTAX_ERROR
  | "7" => some .E_7_UNKNOWN_OBJECT
  | "8" => some .E_8_INTERNAL_ERROR
  | "9" => some .E_9_CONCURRENT_TRANSACTION_IS_IN_PROGRESS
  | "10" => some .E_10_UNKNOWN_ACCESS_POINT
  | "11" => some .E_11_AUTHENTICATION_FAILED
  | "12" => some .E_12_DELEGATION_IS_DISABLED
  | "13" => some .E_13_DELEGATION_IS_NOT_ACTIVE
  | "14" => some .E_14_NOT_SUBSCRIBED
  | "15" => some .E_15_ALREADY_SUBSCRIBED
  | "16" => some .E_16_SPECIFIED_KEY_ALREADY_IN_USE
  | "17" => some .E_17_SPECIFIED_RULE_DOESNT_EXIST
  | "18" => some .E_18_SPECIFIED_KEY_DOESNT_EXIST
  | "19" => some .E_19_UNKNOWN_VIDEO_CHANNEL
  | "20" => some .E_20_UNKNOWN_ALARM_LINE
  | "21" => some .E_21_OIF_ACCESS_IS_DISABLED_FOR_THIS_USER
  | "22" => some .E_22_VIDEO_IS_NOT_AVAILABLE
  | "23" => some .E_23_STREAM_IS_NOT_OPENED
  | "24" => some .E_24_FACE_RECOGNITION_IS_OFF
  | "25" => some .E_25_ACCESS_POLICY_ERROR
  | "26" => some .E_26_TIMED_OUT
  | "27" => some .E_27_SOCKET_BIND_FAILED
  | "28" => some .E_28_UNKNOWN_ERROR
  | "29" => some .E_29_EXTMEM_ERROR
  | _ => none

/-! ## The client layer (`pysigur/pysigur.py`)

The wire is modelled as a `Service` carrying the queue of replies the
server will deliver and the log of commands already written.  A raised
Python exception is an `Except.error` carrying a `PyExc`; the service state
is threaded through even on a raise (the bytes were written). -/

inductive PyExc where
  | err (k : SigurErrorKind)
  | keyErr (key : String)
  | modelMismatch (cls : String) (line : String)
  | valueErr (text : String)
  | timeoutPy
deriving DecidableEq

instance {ε α : Type} [DecidableEq ε] [DecidableEq α] : DecidableEq (Except ε α)
  | .ok x, .ok y =>
    if h : x = y then .isTrue (by rw [h]) else .isFalse fun hc => h (Except.ok.inj hc)
  | .ok _, .error _ => .isFalse fun hc => Except.noConfusion hc
  | .error _, .ok _ => .isFalse fun hc => Except.noConfusion hc
  | .error e, .error f =>
    if h : e = f then .isTrue (by rw [h]) else .isFalse fun hc => h (Except.error.inj hc)

structure Service where
  incoming : List String
  sent : List String
deriving DecidableEq

/-- `SigurAsyncService.query`: write the command, read one reply line; a
reply starting with `ERROR` is parsed by `SigurExceptionModel` (raising
Model Mismatch when even that pattern fails) and dispatched through
`SigurException`, whose dict lookup raises the mapped error class or
`KeyError`. -/
def pyQuery (svc : Service) (q : String) : Except PyExc String × Service :=
  let sent2 := svc.sent ++ [q]
  match svc.incoming with
  | [] => (.error .timeoutPy, ⟨[], sent2⟩)
  | reply :: rest =>
    let svc3 : Service := ⟨rest, sent2⟩
    if strStarts reply "ERROR" then
      match sigurExceptionParse reply with
      | none => (.error (.modelMismatch "SigurExceptionModel" reply), svc3)
      | some d =>
        match sigurErrorTable d.id with
        | some k => (.error (.err k), svc3)
        | none => (.error (.keyErr d.id), svc3)
    else (.ok reply, svc3)

inductive ObjectRecord where
  | emp (d : ObjectInfoEmpData)
  | guest (d : ObjectInfoGuestData)
  | car (d : ObjectInfoCarData)
deriving DecidableEq

/-- `SigurAsyncClient._match_object_info`: try the `EMP`, `GUESTBADGE`,
`CAR` literal prefixes in dict order; on a prefix hit the corresponding
model constructor runs and raises Model Mismatch if its pattern does not
match; with no prefix hit the method returns `None`. -/
def matchObjectInfo (s : String) : Except PyExc (Option ObjectRecord) :=
  if strStarts s "EMP" then
    match objectInfoEmpParse s with
    | some d => .ok (some (.emp d))
    | none => .error (.modelMismatch "ObjectInfoEmp" s)
  else if strStarts s "GUESTBADGE" then
    match objectInfoGuestParse s with
    | some d => .ok (some (.guest d))
    | none => .error (.modelMismatch "ObjectInfoGuest" s)
  else if strStarts s "CAR" then
    match objectInfoCarParse s with
    | some d => .ok (some (.car d))
    | none => .error (.modelMismatch "ObjectInfoCar" s)
  else .ok none

/-- `SigurAsyncClient.get_object_info`. -/
def get_object_info (svc : Service) (object_id : String) :
    Except PyExc (Option ObjectRecord) × Service :=
  match pyQuery svc ("GETOBJECTINFO OBJECTID " ++ object_id) with
  | (.error e, s2) => (.error e, s2)
  | (.ok reply, s2) =>
    if reply = "OBJECTINFO" ∨ strStarts reply "OBJECTINFO" = false then (.ok none, s2)
    else
      match matchObjectInfo (dropLeading reply "OBJECTINFO ") with
      | .ok (some obj) => (.ok (some obj), s2)
      | .ok none => (.ok none, s2)
      | .error e => (.error e, s2)

/-- The separator rewriting and split of `get_object_info_all`: only the
separator instances preceding a record-start literal are rewritten to the
private `",,"` marker, then the line is split on that marker. -/
def segmentObjectList (s : String) : List String :=
  (splitSeq ",,".toList
    (replaceSeq
      (replaceSeq
        (replaceSeq s.toList ", EMP ".toList ",,EMP ".toList)
        ", GUESTBADGE ".toList ",,GUESTBADGE ".toList)
      ", CAR ".toList ",,CAR ".toList)).map List.asString

/-- The item loop of `get_object_info_all`: `_match_object_info` per item,
appending matches and skipping (with a log) items matching no prefix; a
Model Mismatch raised by a constructor is not caught and aborts the loop. -/
def processObjects : List String → Except PyExc (List ObjectRecord)
  | [] => .ok []
  | item :: rest =>
    match matchObjectInfo item with
    | .error e => .error e
    | .ok (some obj) => (processObjects rest).map (obj :: ·)
    | .ok none => processObjects rest

/-- `SigurAsyncClient.get_object_info_all`. -/
def get_object_info_all (svc : Service) :
    Except PyExc (Option (List ObjectRecord)) × Service :=
  match pyQuery svc "GETOBJECTINFO ALL" with
  | (.error e, s2) => (.error e, s2)
  | (.ok reply, s2) =>
    if reply = "OBJECTINFO" ∨ strStarts reply "OBJECTINFO" = false then (.ok none, s2)
    else
      match processObjects (segmentObjectList (dropLeading reply "OBJECTINFO ")) with
      | .error e => (.error e, s2)
      | .ok objs => (.ok (some objs), s2)

/-- The item loop of `get_zone_info`: each item is handed to the `ZoneInfo`
constructor, whose Model Mismatch is not caught (a constructed `ZoneInfo`
is always truthy, so the `else` log-and-skip branch of the source loop is
unreachable). -/
def processZones : List String → Except PyExc (List ZoneInfoData)
  | [] => .ok []
  | item :: rest =>
    match zoneInfoParse item with
    | none => .error (.modelMismatch "ZoneInfo" item)
    | some z => (processZones rest).map (z :: ·)

/-- `SigurAsyncClient.get_zone_info`. -/
def get_zone_info (svc : Service) :
    Except PyExc (Option (List ZoneInfoData)) × Service :=
  match pyQuery svc "GETZONEINFO" with
  | (.error e, s2) => (.error e, s2)
  | (.ok reply, s2) =>
    if reply = "ZONEINFO" ∨ strStarts reply "ZONEINFO" = false then (.ok none, s2)
    else
      match processZones ((splitSeq ", ".toList (dropLeading reply "ZONEINFO ").toList).map List.asString) with
      | .error e => (.error e, s2)
      | .ok zones => (.ok (some zones), s2)

/-- `SigurAsyncClient.get_ap_info` (the `APInfo` constructor's Model
Mismatch is not caught; a constructed `APInfo` is always truthy, so the
log-and-return-None branch is unreachable). -/
def get_ap_info (svc : Service) (ap_id : String) :
    Except PyExc (Option APInfoData) × Service :=
  match pyQuery svc ("GETAPINFO " ++ ap_id) with
  | (.error e, s2) => (.error e, s2)
  | (.ok reply, s2) =>
    if reply = "APINFO" ∨ strStarts reply "APINFO" = false then (.ok none, s2)
    else
      match apInfoParse reply with
      | some d => (.ok (some d), s2)
      | none => (.error (.modelMismatch "APInfo" reply), s2)

/-- The per-id loop of `get_ap_list`: `get_ap_info` for each listed id,
keying the result dict by `int(ap_id)` and skipping (with a log) ids whose
info came back `None`. -/
def apListLoop : Service → List String → List (Int × APInfoData) →
    Except PyExc (List (Int × APInfoData)) × Service
  | svc, [], acc => (.ok acc, svc)
  | svc, ap_id :: rest, acc =>
    match get_ap_info svc ap_id with
    | (.error e, s2) => (.error e, s2)
    | (.ok (some ap), s2) =>
      match pyInt ap_id with
      | some n => apListLoop s2 rest (acc ++ [(n, ap)])
      | none => (.error (.valueErr ap_id), s2)
    | (.ok none, s2) => apListLoop s2 rest acc

/-- `SigurAsyncClient.get_ap_list`. -/
def get_ap_list (svc : Service) :
    Except PyExc (Option (List (Int × APInfoData))) × Service :=
  match pyQuery svc "GETAPLIST" with
  | (.error e, s2) => (.error e, s2)
  | (.ok reply, s2) =>
    if reply = "APLIST EMPTY" ∨ strStarts reply "APLIST" = false then (.ok none, s2)
    else
      match apListLoop s2
          ((splitSeq " ".toList (dropLeading reply "APLIST ").toList).map List.asString) [] with
      | (.error e, s3) => (.error e, s3)
      | (.ok l, s3) => (.ok (some l), s3)

inductive APReply where
  | emp (d : AccessPolicyReplyEmpData)
  | noemp (d : AccessPolicyReplyNoEmpData)
deriving DecidableEq

/-- The reply handling of `accesspolicy_request` (pysigur.py lines
293-300): construct `AccessPolicyReplyEmp` first; on its Model Mismatch
construct `AccessPolicyReplyNoEmp`, whose own Model Mismatch is not caught
and propagates (so the final log-and-return-None lines are unreachable). -/
def handleAccessPolicyReply (reply : String) : Except PyExc (Option APReply) :=
  match accessPolicyReplyEmpParse reply with
  | some d => .ok (some (.emp d))
  | none =>
    match accessPolicyReplyNoEmpParse reply with
    | some d => .ok (some (.noemp d))
    | none => .error (.modelMismatch "AccessPolicyReplyNoEmp" reply)

/-! ## Serialization (`__str__`) of the key shapes -/

/-- Python `format(s, "0<w>")` applied to a `str` value on Python ≥ 3.10:
fill character `'0'` with the default (left) alignment for strings, i.e.
zeros are appended on the right up to the width. -/
def padZeros (w : Nat) (s : String) : String :=
  s ++ String.mk (List.replicate (w - s.toList.length) '0')

/-- `W26Key.__str__`: `f"W26 {key_a:03} {key_b:05}"` (the fields are the
captured strings, so this is string formatting, not numeric). -/
def w26Str (d : W26KeyData) : String :=
  "W26 " ++ padZeros 3 d.key_a ++ " " ++ padZeros 5 d.key_b

/-- `W34Key.__str__`: `f"W34 {key}"`. -/
def w34Str (d : W34KeyData) : String := "W34 " ++ d.key

/-! ## The access-point state vocabulary (`APStates`) -/

/-- `APStates[name]` lookup by member name; `none` models the `KeyError`
raised for a name that is not a member. -/
def apStatesLookup : String → Option String
  | "OFFLINE" => some "Нет связи"
  | "ONLINE_NORMAL" => some "Нормальный режим"
  | "ONLINE_UNLOCKED" => some "Разблокирована"
  | "ONLINE_LOCKED" => some "Заблокирована"
  | "OPENED" => some "Открыта"
  | "CLOSED" => some "Закрыта"
  | _ => none

/-- `APInfo.__str__`: interpolates `APStates[state_adm]` and
`APStates[state_phys]`; `none` models the `KeyError` escaping when either
state token is not a member name. -/
def apInfoStr (d : APInfoData) : Option String :=
  match apStatesLookup d.state_adm with
  | none => none
  | some adm =>
    match apStatesLookup d.state_phys with
    | none => none
    | some phys =>
      some ("Точка прохода:\r\n\tID: " ++ d.id ++ "\r\n\tНазвание: " ++ d.name ++
        "\r\n\tЗона выхода: " ++ d.zonea ++ "\r\n\tЗона входа: " ++ d.zoneb ++
        "\r\n\tСостояние: " ++ adm ++ "\r\n\tСостояние контроллера: " ++ phys ++ "\r\n\t")

/-! ## Correctness of the line framer

`findSep` is the byte-level `buffer.find(b"\r\n")`.  The lemmas below
characterize the first occurrence of the terminator, and
`readuntil_spec` / `readlineGo_spec` show that the repository's
`readline` loop reassembles a whole line regardless of how the stream
was chunked and of how often the buffer limit forced a
`LimitOverrunError` round. -/

theorem findSep_none_cons (a : Nat) (l : List Nat) (h : findSep (a :: l) = none) :
    findSep l = none := by
  cases l with
  | nil => rfl
  | cons b l2 =>
    simp only [findSep] at h
    by_cases hab : a = 13 ∧ b = 10
    · rw [if_pos hab] at h
      exact absurd h (by simp)
    · rw [if_neg hab] at h
      exact Option.map_eq_none'.1 h

theorem findSep_append_sep : ∀ (pre post : List Nat), findSep pre = none →
    findSep (pre ++ 13 :: 10 :: post) = some pre.length := by
  intro pre
  induction pre with
  | nil => intro post _; simp [findSep]
  | cons a pre2 ih =>
    intro post h
    have h2 : findSep pre2 = none := findSep_none_cons a pre2 h
    cases pre2 with
    | nil => simp [findSep]
    | cons b pre3 =>
      have hcond : ¬(a = 13 ∧ b = 10) := by
        intro hc
        simp only [findSep] at h
        rw [if_pos hc] at h
        exact absurd h (by simp)
      have hih := ih post h2
      simp only [List.cons_append, List.append_eq, findSep] at hih ⊢
      rw [if_neg hcond, hih]
      simp

theorem findSep_uniq : ∀ (p q s t : List Nat), p ++ 13 :: 10 :: s = q ++ 13 :: 10 :: t →
    findSep p = none → findSep q = none → p = q ∧ s = t := by
  intro p
  induction p with
  | nil =>
    intro q s t heq hp hq
    cases q with
    | nil =>
      simp only [List.nil_append] at heq
      injection heq with _ h2
      injection h2 with _ h3
      exact ⟨rfl, h3⟩
    | cons a q2 =>
      simp only [List.nil_append, List.cons_append] at heq
      injection heq with h1 h2
      cases q2 with
      | nil =>
        simp only [List.nil_append] at h2
        injection h2 with h3 _
        omega
      | cons b q3 =>
        simp only [List.cons_append] at h2
        injection h2 with h3 _
        exfalso
        simp only [findSep] at hq
        rw [if_pos ⟨h1.symm, h3.symm⟩] at hq
        exact absurd hq (by simp)
  | cons a p2 ih =>
    intro q s t heq hp hq
    cases q with
    | nil =>
      simp only [List.nil_append, List.cons_append] at heq
      injection heq with h1 h2
      cases p2 with
      | nil =>
        simp only [List.nil_append] at h2
        injection h2 with h3 _
        omega
      | cons b p3 =>
        simp only [List.cons_append] at h2
        injection h2 with h3 _
        exfalso
        simp only [findSep] at hp
        rw [if_pos ⟨h1, h3⟩] at hp
        exact absurd hp (by simp)
    | cons b q2 =>
      simp only [List.cons_append] at heq
      injection heq with h1 h2
      subst h1
      obtain ⟨hpq, hst⟩ := ih q2 s t h2 (findSep_none_cons a p2 hp) (findSep_none_cons a q2 hq)
      exact ⟨by rw [hpq], hst⟩

theorem findSep_some : ∀ (l : List Nat) (i : Nat), findSep l = some i →
    ∃ pre post, l = pre ++ 13 :: 10 :: post ∧ pre.length = i ∧ findSep pre = none := by
  intro l
  induction l with
  | nil => intro i h; simp [findSep] at h
  | cons a rest ih =>
    intro i h
    cases rest with
    | nil => simp [findSep] at h
    | cons b rest2 =>
      simp only [findSep] at h
      by_cases hab : a = 13 ∧ b = 10
      · rw [if_pos hab] at h
        simp only [Option.some.injEq] at h
        subst h
        exact ⟨[], rest2, by rw [hab.1, hab.2]; rfl, rfl, rfl⟩
      · rw [if_neg hab] at h
        rcases Option.map_eq_some'.1 h with ⟨j, hj, hji⟩
        rcases ih j hj with ⟨pre, post, hl, hlen, hnone⟩
        refine ⟨a :: pre, post, by rw [List.cons_append, ← hl], by simp [hlen, hji], ?_⟩
        cases pre with
        | nil => rfl
        | cons c pre2 =>
          have hbc : b = c := by
            simp only [List.cons_append] at hl
            injection hl
          simp only [findSep]
          rw [if_neg (fun hc => hab ⟨hc.1, hbc ▸ hc.2⟩)]
          rw [Option.map_eq_none']
          exact hnone

theorem findSep_drop : ∀ (n : Nat) (l : List Nat), findSep l = none →
    findSep (l.drop n) = none := by
  intro n
  induction n with
  | zero => intro l h; simpa using h
  | succ m ih =>
    intro l h
    cases l with
    | nil => rfl
    | cons a l2 => exact ih l2 (findSep_none_cons a l2 h)

/-- A terminator-free prefix of `rest ++ [13, 10]` may extend at most one
byte past `rest` (it can hold the 13 but not the full pair). -/
theorem prefix_no_sep_length (buf rest X : List Nat)
    (heq : buf ++ X = rest ++ [13, 10]) (hrest : findSep rest = none)
    (hbuf : findSep buf = none) : buf.length ≤ rest.length + 1 := by
  by_contra hlt
  push_neg at hlt
  have hlen : buf.length + X.length = rest.length + 2 := by
    have := congrArg List.length heq
    simpa using this
  have hXnil : X = [] := List.length_eq_zero.1 (by omega)
  rw [hXnil, List.append_nil] at heq
  rw [heq, findSep_append_sep rest [] hrest] at hbuf
  exact absurd hbuf (by simp)

/-- Behaviour of the modelled `readuntil` on a stream that is a
terminator-free line followed by the terminator: it either returns the
whole line (terminator included), or raises `LimitOverrunError` with a
consumed count that is at least one byte, within the line, and already
buffered. -/
theorem readuntil_spec (limit : Nat) :
    ∀ (chunks : List (List Nat)) (buf rest : List Nat),
      buf ++ chunks.flatten = rest ++ [13, 10] → findSep rest = none →
      (∃ chunks2, readuntilGo limit buf chunks = (.ok (rest ++ [13, 10]), ⟨[], chunks2⟩) ∧
          chunks2.flatten = []) ∨
      (∃ consumed buf2 chunks2,
          readuntilGo limit buf chunks = (.overrun consumed, ⟨buf2, chunks2⟩) ∧
          buf2 ++ chunks2.flatten = rest ++ [13, 10] ∧
          1 ≤ consumed ∧ consumed ≤ rest.length ∧ consumed ≤ buf2.length) := by
  intro chunks
  induction chunks with
  | nil =>
    intro buf rest heq hrest
    rw [List.flatten_nil, List.append_nil] at heq
    subst heq
    have hfind : findSep (rest ++ [13, 10]) = some rest.length :=
      findSep_append_sep rest [] hrest
    simp only [readuntilGo, hfind]
    by_cases hl : limit < rest.length
    · rw [if_pos hl]
      right
      exact ⟨rest.length, rest ++ [13, 10], [], rfl, by simp, by omega, le_refl _, by simp⟩
    · rw [if_neg hl]
      left
      refine ⟨[], ?_, rfl⟩
      have h2 : rest.length + 2 = (rest ++ [13, 10]).length := by simp
      rw [h2, List.take_length, List.drop_length]
  | cons c cs ih =>
    intro buf rest heq hrest
    cases hf : findSep buf with
    | some isep =>
      rcases findSep_some buf isep hf with ⟨pre, post, hbuf, hlen, hprenone⟩
      have heq2 : pre ++ 13 :: 10 :: (post ++ (c :: cs).flatten) = rest ++ 13 :: 10 :: [] := by
        rw [hbuf] at heq
        simpa [List.append_assoc] using heq
      obtain ⟨hpr, hpost⟩ :=
        findSep_uniq pre rest (post ++ (c :: cs).flatten) [] heq2 hprenone hrest
      obtain ⟨hpostnil, hflatnil⟩ := List.append_eq_nil.1 hpost
      subst hpr
      subst hpostnil
      have hisep : isep = pre.length := hlen.symm
      subst hisep
      simp only [readuntilGo, hf]
      by_cases hl : limit < pre.length
      · rw [if_pos hl]
        right
        refine ⟨pre.length, buf, c :: cs, rfl, heq, by omega, le_refl _, ?_⟩
        rw [hbuf]
        simp
      · rw [if_neg hl]
        left
        refine ⟨c :: cs, ?_, hflatnil⟩
        have h2 : pre.length + 2 = buf.length := by rw [hbuf]; simp
        rw [h2, List.take_length, List.drop_length, hbuf]
    | none =>
      simp only [readuntilGo, hf]
      by_cases hg : 2 ≤ buf.length ∧ limit < buf.length - 1
      · rw [if_pos hg]
        right
        have hbound := prefix_no_sep_length buf rest (c :: cs).flatten heq hrest hf
        exact ⟨buf.length - 1, buf, c :: cs, rfl, heq, by omega, by omega, by omega⟩
      · rw [if_neg hg]
        have heq3 : (buf ++ c) ++ cs.flatten = rest ++ [13, 10] := by
          simpa [List.append_assoc] using heq
        exact ih (buf ++ c) rest heq3 hrest

theorem readexactly_imm (n : Nat) (buf : List Nat) (chunks : List (List Nat))
    (h : n ≤ buf.length) :
    readexactlyGo n buf chunks = (some (buf.take n), ⟨buf.drop n, chunks⟩) := by
  cases chunks with
  | nil => simp only [readexactlyGo]; rw [if_pos h]
  | cons c rest => simp only [readexactlyGo]; rw [if_pos h]

/-- The `readline` loop returns the accumulated prefix plus the whole
terminated line, for any chunking of the remaining stream, given enough
fuel (one unit per byte of the line suffices, as each overrun round
consumes at least one byte). -/
theorem readlineGo_spec (limit : Nat) :
    ∀ (fuel : Nat) (buf : List Nat) (chunks : List (List Nat)) (rest acc : List Nat),
      buf ++ chunks.flatten = rest ++ [13, 10] → findSep rest = none →
      rest.length + 1 ≤ fuel →
      (readlineGo limit fuel acc ⟨buf, chunks⟩).1 = .ok (acc ++ rest ++ [13, 10]) := by
  intro fuel
  induction fuel with
  | zero => intro buf chunks rest acc _ _ hfuel; omega
  | succ f ih =>
    intro buf chunks rest acc heq hrest hfuel
    rcases readuntil_spec limit chunks buf rest heq hrest with
      ⟨chunks2, hok, _⟩ | ⟨consumed, buf2, chunks2, hov, heq2, hc1, hc2, hc3⟩
    · simp only [readlineGo, hok]
      simp [List.append_assoc]
    · simp only [readlineGo, hov]
      simp only [readexactly_imm consumed buf2 chunks2 hc3]
      have htake : buf2.take consumed = rest.take consumed := by
        have h1 : buf2.take consumed = (buf2 ++ chunks2.flatten).take consumed := by
          rw [List.take_append_of_le_length hc3]
        rw [h1, heq2, List.take_append_of_le_length hc2]
      have hdrop : buf2.drop consumed ++ chunks2.flatten = rest.drop consumed ++ [13, 10] := by
        have h1 : buf2.drop consumed ++ chunks2.flatten =
            (buf2 ++ chunks2.flatten).drop consumed := by
          rw [List.drop_append_of_le_length hc3]
        rw [h1, heq2, List.drop_append_of_le_length hc2]
      have hrest2 : findSep (rest.drop consumed) = none := findSep_drop consumed rest hrest
      have hfuel2 : (rest.drop consumed).length + 1 ≤ f := by
        simp only [List.length_drop]
        omega
      rw [htake]
      have hrec := ih (buf2.drop consumed) chunks2 (rest.drop consumed)
        (acc ++ rest.take consumed) hdrop hrest2 hfuel2
      rw [hrec]
      have hstep : ((acc ++ List.take consumed rest) ++ List.drop consumed rest) ++ [13, 10] =
          (acc ++ rest) ++ [13, 10] := by
        rw [List.append_assoc acc (List.take consumed rest) (List.drop consumed rest),
          List.take_append_drop]
      exact congrArg Except.ok hstep

/-- `readline` on a fresh reader over any chunking of `payload ++ CRLF`
(with a terminator-free payload) returns the full terminated line. -/
theorem readline_returns_line (limit : Nat) (chunks : List (List Nat)) (payload : List Nat)
    (h1 : chunks.flatten = payload ++ [13, 10]) (h2 : findSep payload = none) :
    (readline limit ⟨[], chunks⟩).1 = .ok (payload ++ [13, 10]) := by
  unfold readline
  have hfuel : payload.length + 1 ≤ totalBytes ⟨[], chunks⟩ + 1 := by
    have htb : totalBytes ⟨[], chunks⟩ = chunks.flatten.length := by
      simp [totalBytes, List.length_flatten]
    rw [htb, h1]
    simp
  have := readlineGo_spec limit (totalBytes ⟨[], chunks⟩ + 1) [] chunks payload []
    (by simpa using h1) h2 hfuel
  simpa using this

theorem stripCRLF_append (p : List Nat) : stripCRLF (p ++ [13, 10]) = p := by
  simp only [stripCRLF]
  rw [List.reverse_append]
  simp

/-! ## Matcher invariants

The facts needed by the claims about captured fields: whenever a search
succeeds, every captured group is a contiguous substring of the searched
text, and its characters satisfy any character predicate that bounds the
classes occurring inside that group's sub-pattern. -/

/-- Every character class inside `re` only accepts characters satisfying
`p`. -/
def Confined (p : Char → Bool) : RE → Prop
  | .eps => True
  | .cls q => ∀ c, q c = true → p c = true
  | .cat r1 r2 => Confined p r1 ∧ Confined p r2
  | .alt r1 r2 => Confined p r1 ∧ Confined p r2
  | .starG r => Confined p r
  | .starL r => Confined p r
  | .grp _ r => Confined p r

theorem confined_true : ∀ r : RE, Confined (fun _ => true) r
  | .eps => trivial
  | .cls _ => fun _ _ => rfl
  | .cat r1 r2 => ⟨confined_true r1, confined_true r2⟩
  | .alt r1 r2 => ⟨confined_true r1, confined_true r2⟩
  | .starG r => confined_true r
  | .starL r => confined_true r
  | .grp _ r => confined_true r

theorem confined_and {p q : Char → Bool} : ∀ {r : RE}, Confined p r → Confined q r →
    Confined (fun c => p c && q c) r
  | .eps, _, _ => trivial
  | .cls _, hp, hq => fun c hc => by simp [hp c hc, hq c hc]
  | .cat _ _, hp, hq => ⟨confined_and hp.1 hq.1, confined_and hp.2 hq.2⟩
  | .alt _ _, hp, hq => ⟨confined_and hp.1 hq.1, confined_and hp.2 hq.2⟩
  | .starG r, hp, hq => confined_and (r := r) hp hq
  | .starL r, hp, hq => confined_and (r := r) hp hq
  | .grp _ r, hp, hq => confined_and (r := r) hp hq

/-- Each group `n` occurring in `re` has a body whose character classes are
bounded by the predicate `G n`. -/
def GroupsOK (G : Nat → Char → Bool) : RE → Prop
  | .eps => True
  | .cls _ => True
  | .cat r1 r2 => GroupsOK G r1 ∧ GroupsOK G r2
  | .alt r1 r2 => GroupsOK G r1 ∧ GroupsOK G r2
  | .starG r => GroupsOK G r
  | .starL r => GroupsOK G r
  | .grp n r => Confined (G n) r ∧ GroupsOK G r

/-- Every capture satisfies its group predicate and is a contiguous
substring of `s0`. -/
def CapsOK (G : Nat → Char → Bool) (s0 : List Char) (caps : Caps) : Prop :=
  ∀ pr ∈ caps, pr.2.all (G pr.1) = true ∧ ∃ l r, s0 = l ++ pr.2 ++ r

/-- Core invariant of the matcher: if `cs` is a suffix of `s0`, the current
captures are sound, and the continuation preserves soundness on any suffix
reached by consuming only `p`-characters, then a successful run yields
sound captures. -/
theorem mre_inv (G : Nat → Char → Bool) (s0 : List Char) :
    ∀ (fuel : Nat) (re : RE) (p : Char → Bool) (cs : List Char) (caps : Caps)
      (k : List Char → Caps → Option Caps) (res : Caps),
      Confined p re → GroupsOK G re → (∃ pre, pre ++ cs = s0) → CapsOK G s0 caps →
      (∀ cs2 caps2, (∃ t, t ++ cs2 = cs ∧ t.all p = true) → CapsOK G s0 caps2 →
        k cs2 caps2 = some res → CapsOK G s0 res) →
      mre fuel re cs caps k = some res → CapsOK G s0 res := by
  intro fuel
  induction fuel with
  | zero =>
    intro re p cs caps k res _ _ _ _ _ h
    simp [mre] at h
  | succ f ih =>
    intro re p cs caps k res hConf hG hpre hcaps hk hrun
    cases re with
    | eps =>
      exact hk cs caps ⟨[], by simp⟩ hcaps hrun
    | cls q =>
      cases cs with
      | nil => simp [mre] at hrun
      | cons c rest =>
        simp only [mre] at hrun
        by_cases hqc : q c = true
        · rw [if_pos hqc] at hrun
          exact hk rest caps ⟨[c], rfl, by simp [hConf c hqc]⟩ hcaps hrun
        · rw [if_neg hqc] at hrun
          exact absurd hrun (by simp)
    | cat r1 r2 =>
      simp only [mre] at hrun
      refine ih r1 p cs caps _ res hConf.1 hG.1 hpre hcaps ?_ hrun
      intro cs2 caps2 ht2 hcaps2 h2
      obtain ⟨t1, ht1, hall1⟩ := ht2
      obtain ⟨pre, hpre0⟩ := hpre
      refine ih r2 p cs2 caps2 k res hConf.2 hG.2
        ⟨pre ++ t1, by rw [List.append_assoc, ht1, hpre0]⟩ hcaps2 ?_ h2
      intro cs3 caps3 ht3 hcaps3 h3
      obtain ⟨t2, ht2b, hall2⟩ := ht3
      exact hk cs3 caps3
        ⟨t1 ++ t2, by rw [List.append_assoc, ht2b, ht1], by simp [hall1, hall2]⟩ hcaps3 h3
    | alt r1 r2 =>
      simp only [mre] at hrun
      cases hm : mre f r1 cs caps k with
      | some res2 =>
        rw [hm] at hrun
        simp only [Option.some.injEq] at hrun
        subst hrun
        exact ih r1 p cs caps k _ hConf.1 hG.1 hpre hcaps hk hm
      | none =>
        rw [hm] at hrun
        exact ih r2 p cs caps k res hConf.2 hG.2 hpre hcaps hk hrun
    | starG r =>
      simp only [mre] at hrun
      cases hm : mre f r cs caps (fun cs2 caps2 =>
          if cs2.length < cs.length then mre f (.starG r) cs2 caps2 k else none) with
      | some res2 =>
        rw [hm] at hrun
        simp only [Option.some.injEq] at hrun
        subst hrun
        refine ih r p cs caps _ _ hConf hG hpre hcaps ?_ hm
        intro cs2 caps2 ht2 hcaps2 h2
        obtain ⟨t1, ht1, hall1⟩ := ht2
        by_cases hlt : cs2.length < cs.length
        · rw [if_pos hlt] at h2
          obtain ⟨pre, hpre0⟩ := hpre
          refine ih (.starG r) p cs2 caps2 k _ hConf hG
            ⟨pre ++ t1, by rw [List.append_assoc, ht1, hpre0]⟩ hcaps2 ?_ h2
          intro cs3 caps3 ht3 hcaps3 h3
          obtain ⟨t2, ht2b, hall2⟩ := ht3
          exact hk cs3 caps3
            ⟨t1 ++ t2, by rw [List.append_assoc, ht2b, ht1], by simp [hall1, hall2]⟩ hcaps3 h3
        · rw [if_neg hlt] at h2
          exact absurd h2 (by simp)
      | none =>
        rw [hm] at hrun
        exact hk cs caps ⟨[], by simp⟩ hcaps hrun
    | starL r =>
      simp only [mre] at hrun
      cases hm : k cs caps with
      | some res2 =>
        rw [hm] at hrun
        simp only [Option.some.injEq] at hrun
        subst hrun
        exact hk cs caps ⟨[], by simp⟩ hcaps hm
      | none =>
        rw [hm] at hrun
        refine ih r p cs caps _ res hConf hG hpre hcaps ?_ hrun
        intro cs2 caps2 ht2 hcaps2 h2
        obtain ⟨t1, ht1, hall1⟩ := ht2
        by_cases hlt : cs2.length < cs.length
        · rw [if_pos hlt] at h2
          obtain ⟨pre, hpre0⟩ := hpre
          refine ih (.starL r) p cs2 caps2 k _ hConf hG
            ⟨pre ++ t1, by rw [List.append_assoc, ht1, hpre0]⟩ hcaps2 ?_ h2
          intro cs3 caps3 ht3 hcaps3 h3
          obtain ⟨t2, ht2b, hall2⟩ := ht3
          exact hk cs3 caps3
            ⟨t1 ++ t2, by rw [List.append_assoc, ht2b, ht1], by simp [hall1, hall2]⟩ hcaps3 h3
        · rw [if_neg hlt] at h2
          exact absurd h2 (by simp)
    | grp n r =>
      simp only [mre] at hrun
      have hConf2 : Confined p r := hConf
      have hG1 : Confined (G n) r := hG.1
      refine ih r (fun c => p c && G n c) cs caps _ res (confined_and hConf2 hG1) hG.2
        hpre hcaps ?_ hrun
      intro cs2 caps2 ht2 hcaps2 h2
      obtain ⟨t1, ht1, hall1⟩ := ht2
      have htake : cs.take (cs.length - cs2.length) = t1 := by
        rw [← ht1, List.length_append, Nat.add_sub_cancel, List.take_left]
      rw [htake] at h2
      have hall_p : t1.all p = true := by
        rw [List.all_eq_true] at hall1 ⊢
        intro c hc
        have hb := hall1 c hc
        rw [Bool.and_eq_true] at hb
        exact hb.1
      have hall_G : t1.all (G n) = true := by
        rw [List.all_eq_true] at hall1 ⊢
        intro c hc
        have hb := hall1 c hc
        rw [Bool.and_eq_true] at hb
        exact hb.2
      obtain ⟨pre, hpre0⟩ := hpre
      refine hk cs2 ((n, t1) :: caps2) ⟨t1, ht1, hall_p⟩ ?_ h2
      intro pr hpr
      rcases List.mem_cons.1 hpr with hpr1 | hpr2
      · subst hpr1
        exact ⟨hall_G, pre, cs2, by rw [← hpre0, ← ht1]; simp⟩
      · exact hcaps2 pr hpr2

/-- Search-level invariant: captures of a successful search are sound with
respect to the searched text. -/
theorem reSearchAux_inv (G : Nat → Char → Bool) (s0 : List Char) (re : RE)
    (hG : GroupsOK G re) (fuel : Nat) :
    ∀ cs : List Char, (∃ pre, pre ++ cs = s0) →
      ∀ caps, reSearchAux re fuel cs = some caps → CapsOK G s0 caps := by
  intro cs
  induction cs with
  | nil =>
    intro hpre caps h
    simp only [reSearchAux] at h
    cases hm : mre fuel re [] [] (fun _ caps => some caps) with
    | none => rw [hm] at h; exact absurd h (by simp)
    | some caps2 =>
      rw [hm] at h
      simp only [Option.some.injEq] at h
      subst h
      refine mre_inv G s0 fuel re (fun _ => true) [] [] _ _ (confined_true re) hG hpre
        (fun pr hpr => absurd hpr (List.not_mem_nil pr)) ?_ hm
      intro cs2 caps3 _ hcaps3 h2
      simp only [Option.some.injEq] at h2
      subst h2
      exact hcaps3
  | cons c rest ih =>
    intro hpre caps h
    simp only [reSearchAux] at h
    cases hm : mre fuel re (c :: rest) [] (fun _ caps => some caps) with
    | none =>
      rw [hm] at h
      obtain ⟨pre, hpre0⟩ := hpre
      exact ih ⟨pre ++ [c], by simpa using hpre0⟩ caps h
    | some caps2 =>
      rw [hm] at h
      simp only [Option.some.injEq] at h
      subst h
      refine mre_inv G s0 fuel re (fun _ => true) (c :: rest) [] _ _ (confined_true re) hG hpre
        (fun pr hpr => absurd hpr (List.not_mem_nil pr)) ?_ hm
      intro cs2 caps3 _ hcaps3 h2
      simp only [Option.some.injEq] at h2
      subst h2
      exact hcaps3

theorem reSearch_inv (G : Nat → Char → Bool) (re : RE) (hG : GroupsOK G re)
    (s : List Char) (caps : Caps) (h : reSearch re s = some caps) :
    CapsOK G s caps :=
  reSearchAux_inv G s re hG (reFuel re s) s ⟨[], rfl⟩ caps h

theorem capsGet_mem (n : Nat) : ∀ (caps : Caps) (v : List Char),
    capsGet n caps = some v → (n, v) ∈ caps := by
  intro caps
  induction caps with
  | nil => intro v h; simp [capsGet] at h
  | cons pr rest ih =>
    intro v h
    rcases pr with ⟨m, w⟩
    simp only [capsGet] at h
    by_cases hm : m = n
    · rw [if_pos hm] at h
      simp only [Option.some.injEq] at h
      subst h; subst hm
      exact List.mem_cons_self _ _
    · rw [if_neg hm] at h
      exact List.mem_cons_of_mem _ (ih v h)

theorem toList_asString (l : List Char) : (List.asString l).toList = l := rfl

theorem data_asString (l : List Char) : (List.asString l).data = l := rfl

/-- The soundness facts of the whole pattern, specialized to one extracted
field: the field string either is a capture (a substring of the input whose
characters satisfy the group predicate) or is empty. -/
theorem capsStr_spec (G : Nat → Char → Bool) (re : RE) (hG : GroupsOK G re)
    (s : List Char) (caps : Caps) (h : reSearch re s = some caps) (n : Nat) :
    (capsStr n caps).toList.all (G n) = true ∧
      ∃ l r, s = l ++ (capsStr n caps).toList ++ r := by
  have hOK := reSearch_inv G re hG s caps h
  unfold capsStr
  cases hg : capsGet n caps with
  | none =>
    refine ⟨by simp [toList_asString, data_asString], s, [],
      by simp [toList_asString, data_asString]⟩
  | some v =>
    have hmem := capsGet_mem n caps v hg
    have := hOK (n, v) hmem
    simpa [toList_asString, data_asString] using this

/-! ### The group predicates of the shapes cited by claim C10 -/

theorem confined_digit_upto (k : Nat) : Confined Char.isDigit (upto k digitC) := by
  induction k with
  | zero => trivial
  | succ m ih => exact ⟨⟨fun c h => h, ih⟩, trivial⟩

theorem confined_digit_body (k : Nat) :
    Confined Char.isDigit (.cat digitC (upto k digitC)) :=
  ⟨fun _ h => h, confined_digit_upto k⟩

theorem groupsOK_lit (G : Nat → Char → Bool) (l : List Char) :
    GroupsOK G (l.foldr (fun c r => RE.cat (.cls (fun a => a == c)) r) .eps) := by
  induction l with
  | nil => trivial
  | cons c cs ih => exact ⟨trivial, ih⟩

theorem groupsOK_slit (G : Nat → Char → Bool) (s : String) : GroupsOK G (slit s) :=
  groupsOK_lit G s.toList

theorem groupsOK_upto (G : Nat → Char → Bool) (k : Nat) {r : RE} (h : GroupsOK G r) :
    GroupsOK G (upto k r) := by
  induction k with
  | zero => trivial
  | succ m ih => exact ⟨⟨h, ih⟩, trivial⟩

theorem groupsOK_digit_body (G : Nat → Char → Bool) (k : Nat) :
    GroupsOK G (.cat digitC (upto k digitC)) :=
  ⟨trivial, groupsOK_upto G k trivial⟩

/-- Both captured fields of the ACCESSPOLICY_REPLY with-employee shape are
digit strings. -/
theorem groupsOK_reAPReplyEmp : GroupsOK (fun _ => Char.isDigit) reAPReplyEmp := by
  unfold reAPReplyEmp
  simp only [chain, List.foldr]
  exact ⟨groupsOK_slit _ _,
    ⟨confined_digit_body 2, groupsOK_digit_body _ 2⟩,
    groupsOK_slit _ _,
    ⟨confined_digit_body 4, groupsOK_digit_body _ 4⟩,
    groupsOK_slit _ _, trivial⟩

/-- The error-envelope shape imposes no character restriction on its
groups. -/
theorem groupsOK_reError : GroupsOK (fun _ _ => true) reError := by
  unfold reError
  simp only [chain, List.foldr]
  exact ⟨groupsOK_slit _ _,
    ⟨confined_true _, trivial⟩,
    groupsOK_slit _ _,
    ⟨confined_true _, trivial⟩, trivial⟩

/-! ## Claim theorems -/

/-- C1, counterexample.  The claim says a code outside the 29-entry
enumeration (e.g. 999) raises a distinct Unknown-Error kind; in the code
the dispatch dict subscript raises `KeyError` instead — an unhandled crash,
and in particular not the `E_28_UNKNOWN_ERROR` kind (which is just the
server-defined code 28). -/
theorem c1_unknown_code_keyerror :
    (pyQuery ⟨["ERROR 999 x"], []⟩ "Q").1 = .error (.keyErr "999") ∧
    (pyQuery ⟨["ERROR 999 x"], []⟩ "Q").1 ≠ .error (.err .E_28_UNKNOWN_ERROR) := by
  decide

/-- C1, amended.  For a reply line beginning with `ERROR` that the error
envelope pattern parses, `query` raises the error kind the dispatch table
maps the parsed code to (code 11 maps to Authentication-Failed); a code
outside the fixed 29-entry enumeration (e.g. 999) is absent from the table,
so the lookup itself fails (an unhandled `KeyError`), rather than a distinct
Unknown-Error kind. -/
theorem c1_error_dispatch (line : String) (d : SigurExceptionData)
    (rest sent : List String) (q : String)
    (h1 : strStarts line "ERROR" = true) (h2 : sigurExceptionParse line = some d) :
    (pyQuery ⟨line :: rest, sent⟩ q).1 =
      .error (match sigurErrorTable d.id with
        | some k => PyExc.err k
        | none => PyExc.keyErr d.id) ∧
    sigurErrorTable "11" = some .E_11_AUTHENTICATION_FAILED ∧
    sigurErrorTable "999" = none := by
  refine ⟨?_, by decide, by decide⟩
  cases htab : sigurErrorTable d.id <;> simp [pyQuery, h1, h2, htab]

/-- C1, witness for the amended theorem at the reply "ERROR 11 bad creds". -/
theorem c1_error_dispatch_witness :
    strStarts "ERROR 11 bad creds" "ERROR" = true ∧
    sigurExceptionParse "ERROR 11 bad creds" = some ⟨"11", ""⟩ ∧
    (pyQuery ⟨["ERROR 11 bad creds"], []⟩ "LOGIN 1.8 sys ").1 =
      .error (match sigurErrorTable (SigurExceptionData.mk "11" "").id with
        | some k => PyExc.err k
        | none => PyExc.keyErr (SigurExceptionData.mk "11" "").id) :=
  ⟨by decide, by decide,
    (c1_error_dispatch "ERROR 11 bad creds" ⟨"11", ""⟩ [] [] "LOGIN 1.8 sys "
      (by decide) (by decide)).1⟩

/-- C2 (code bug).  The claim (and the spec) say a Model Mismatch during
list processing is caught per item, logged and skipped; in the code the
mismatch raised by a model constructor inside the loop is not caught
anywhere, so one malformed segment aborts the whole list call: an object
item that starts with a known prefix but fails its shape, and any malformed
zone item, raise out of `get_object_info_all` / `get_zone_info` (the
log-and-skip `else` branch of the zone loop is unreachable, which shows the
skip was the intent).  Only object items matching no known prefix are
logged and skipped. -/
theorem c2_mismatch_aborts_list :
    (get_object_info_all
        ⟨["OBJECTINFO EMP garbage, EMP ID 2 NAME \"C\" POSITION \"Y\" TABNUMBER \"2\""], []⟩).1 =
      .error (.modelMismatch "ObjectInfoEmp" "EMP garbage") ∧
    (get_zone_info ⟨["ZONEINFO ID 1 NAME \"A\", garbage"], []⟩).1 =
      .error (.modelMismatch "ZoneInfo" "garbage") ∧
    (get_object_info_all
        ⟨["OBJECTINFO XX garbage, EMP ID 2 NAME \"C\" POSITION \"Y\" TABNUMBER \"2\""], []⟩).1 =
      .ok (some [.emp ⟨"2", "C", "Y", "2"⟩]) := by
  refine ⟨by decide, by decide, by decide⟩

/-- C3, counterexample.  For the reply "APLIST EMPTY", `get_ap_list` does
not yield an empty access-point collection: the guard returns `None`
(the same value as for an unrecognized reply), not an empty dict. -/
theorem c3_not_empty_collection :
    (get_ap_list ⟨["APLIST EMPTY"], []⟩).1 ≠ .ok (some []) := by decide

/-- C3, amended.  When the server replies exactly "APLIST EMPTY" to
GETAPLIST, `get_ap_list` returns `None` — no error is raised, but no empty
collection is produced either. -/
theorem c3_aplist_empty_returns_none :
    get_ap_list ⟨["APLIST EMPTY"], []⟩ = (.ok none, ⟨[], ["GETAPLIST"]⟩) := by decide

/-- C4.  For every ACCESSPOLICY_REPLY line the with-employee shape is
attempted first and the without-employee shape only on its mismatch; the
reply with an EMPID segment parses as the with-employee shape with
result_id "255" and emp_id "42", and the reply without one is rejected by
the with-employee shape and parses as the without-employee shape with
result_id "3". -/
theorem c4_accesspolicy_order :
    (∀ reply d, accessPolicyReplyEmpParse reply = some d →
      handleAccessPolicyReply reply = .ok (some (.emp d))) ∧
    (∀ reply d, accessPolicyReplyEmpParse reply = none →
      accessPolicyReplyNoEmpParse reply = some d →
      handleAccessPolicyReply reply = .ok (some (.noemp d))) ∧
    accessPolicyReplyEmpParse "ACCESSPOLICY_REPLY RESULT 255 EMPID 42 MASKVERPOLICY_OFF" =
      some ⟨"255", "42"⟩ ∧
    accessPolicyReplyEmpParse "ACCESSPOLICY_REPLY RESULT 3 MASKVERPOLICY_OFF" = none ∧
    accessPolicyReplyNoEmpParse "ACCESSPOLICY_REPLY RESULT 3 MASKVERPOLICY_OFF" = some ⟨"3"⟩ := by
  refine ⟨?_, ?_, by decide, by decide, by decide⟩
  · intro reply d h
    simp [handleAccessPolicyReply, h]
  · intro reply d h1 h2
    simp [handleAccessPolicyReply, h1, h2]

/-- C4, witness applying both ordering branches at the two replies of the
claim. -/
theorem c4_accesspolicy_order_witness :
    handleAccessPolicyReply "ACCESSPOLICY_REPLY RESULT 255 EMPID 42 MASKVERPOLICY_OFF" =
      .ok (some (.emp ⟨"255", "42"⟩)) ∧
    handleAccessPolicyReply "ACCESSPOLICY_REPLY RESULT 3 MASKVERPOLICY_OFF" =
      .ok (some (.noemp ⟨"3"⟩)) :=
  ⟨c4_accesspolicy_order.1 _ _ (by decide),
    c4_accesspolicy_order.2.1 _ _ (by decide) (by decide)⟩

/-- C5.  Segmenting the two-record EMP line by rewriting only the separator
instances that precede a record-start literal into the private ",," marker
and splitting on it yields exactly two sub-lines, each matching the person
shape, and the name field of the first record is "A, B" with the embedded
comma preserved. -/
theorem c5_segment_two_records :
    segmentObjectList
        "EMP ID 1 NAME \"A, B\" POSITION \"X\" TABNUMBER \"1\", EMP ID 2 NAME \"C\" POSITION \"Y\" TABNUMBER \"2\"" =
      ["EMP ID 1 NAME \"A, B\" POSITION \"X\" TABNUMBER \"1\"",
       "EMP ID 2 NAME \"C\" POSITION \"Y\" TABNUMBER \"2\""] ∧
    objectInfoEmpParse "EMP ID 1 NAME \"A, B\" POSITION \"X\" TABNUMBER \"1\"" =
      some ⟨"1", "A, B", "X", "1"⟩ ∧
    objectInfoEmpParse "EMP ID 2 NAME \"C\" POSITION \"Y\" TABNUMBER \"2\"" =
      some ⟨"2", "C", "Y", "2"⟩ := by
  refine ⟨by decide, by decide, by decide⟩

/-- C6, counterexample.  The Wiegand-26 shape does not round-trip through
its own serialization: `__str__` space-joins the zero-padded fields
(`"W26 123 45678"`), while the parse pattern requires the two digit fields
comma-joined, so re-parsing the serialized text fails with Model Mismatch
instead of returning the original record. -/
theorem c6_w26_reparse_fails :
    w26KeyParse "123,45678" = some ⟨"123", "45678"⟩ ∧
    w26Str ⟨"123", "45678"⟩ = "W26 123 45678" ∧
    w26KeyParse (w26Str ⟨"123", "45678"⟩) = none := by
  refine ⟨by decide, by decide, by decide⟩

/-- C6, amended.  Of the two key shapes that define serialization, only the
Wiegand-8hex shape round-trips: for every 8-character uppercase-hex key,
parsing the exact text produced by `W34Key.__str__` yields a record equal
to the original.  The Wiegand-26 shape never does: its serialization
zero-pads key_a to 3 and key_b to 5 characters joined by a single space,
while its pattern reads the two fields comma-joined, so parsing its own
serialization fails (counterexample record ⟨"123", "45678"⟩). -/
theorem c6_roundtrip_amended :
    (∀ c0 c1 c2 c3 c4 c5 c6 c7 : Char,
      isHexU c0 = true → isHexU c1 = true → isHexU c2 = true → isHexU c3 = true →
      isHexU c4 = true → isHexU c5 = true → isHexU c6 = true → isHexU c7 = true →
      w34KeyParse (w34Str ⟨String.mk [c0, c1, c2, c3, c4, c5, c6, c7]⟩) =
        some ⟨String.mk [c0, c1, c2, c3, c4, c5, c6, c7]⟩) ∧
    w26KeyParse (w26Str ⟨"123", "45678"⟩) = none := by
  refine ⟨?_, by decide⟩
  intro c0 c1 c2 c3 c4 c5 c6 c7 h0 h1 h2 h3 h4 h5 h6 h7
  have hW : isHexU 'W' = false := by decide
  have h3c : isHexU '3' = true := by decide
  have h4c : isHexU '4' = true := by decide
  have hsp : isHexU ' ' = false := by decide
  have hdata : (w34Str ⟨String.mk [c0, c1, c2, c3, c4, c5, c6, c7]⟩).toList =
      'W' :: '3' :: '4' :: ' ' :: [c0, c1, c2, c3, c4, c5, c6, c7] := by
    simp [w34Str, String.toList, String.data_append]
  simp only [w34KeyParse, reSearch, hdata]
  norm_num [reFuel, reSize, reW34, hexU, chain, List.replicate]
  simp [reSearchAux, mre, reW34, hexU, chain, List.replicate, capsStr, capsGet,
    List.asString, h0, h1, h2, h3, h4, h5, h6, h7, hW, h3c, h4c, hsp]

/-- C6, witness for the amended round-trip at the key "ABCD1234". -/
theorem c6_roundtrip_amended_witness :
    isHexU 'A' = true ∧
    w34KeyParse (w34Str ⟨String.mk ['A', 'B', 'C', 'D', '1', '2', '3', '4']⟩) =
      some ⟨String.mk ['A', 'B', 'C', 'D', '1', '2', '3', '4']⟩ :=
  ⟨by decide,
    c6_roundtrip_amended.1 'A' 'B' 'C' 'D' '1' '2' '3' '4'
      (by decide) (by decide) (by decide) (by decide)
      (by decide) (by decide) (by decide) (by decide)⟩

/-- C7, counterexample.  An APINFO reply whose STATE tokens are outside the
fixed vocabularies parses fine, but the unrecognized tokens are stored
verbatim in the record — they are not mapped to any explicit
"unknown state" value (the states enumeration has no such member, as the
failing lookup shows). -/
theorem c7_unknown_state_kept_raw :
    apInfoParse "APINFO ID 5 NAME \"Door\" ZONEA 1 ZONEB 2 STATE BOGUS WEIRD" =
      some ⟨"5", "Door", "1", "2", "BOGUS", "WEIRD"⟩ ∧
    apStatesLookup "BOGUS" = none ∧ apStatesLookup "WEIRD" = none := by
  refine ⟨by decide, by decide, by decide⟩

/-- C7, amended.  Parsing an APINFO reply with an unrecognized STATE token
succeeds and stores the token verbatim (the record does not fail), but no
explicit "unknown state" value exists: the state enumeration has only its
six fixed members, and rendering such a record (`__str__`) fails with a
lookup error on the unrecognized token. -/
theorem c7_unknown_state_amended :
    apInfoParse "APINFO ID 7 NAME \"Gate\" ZONEA 3 ZONEB 4 STATE STRANGE ODD" =
      some ⟨"7", "Gate", "3", "4", "STRANGE", "ODD"⟩ ∧
    (∀ d : APInfoData, apStatesLookup d.state_adm = none → apInfoStr d = none) ∧
    (∀ d : APInfoData, apStatesLookup d.state_phys = none → apInfoStr d = none) := by
  refine ⟨by decide, ?_, ?_⟩
  · intro d h
    simp [apInfoStr, h]
  · intro d h
    cases h2 : apStatesLookup d.state_adm <;> simp [apInfoStr, h, h2]

/-- C7, witness for the amended theorem at the parsed record with the
unrecognized administrative state "STRANGE". -/
theorem c7_unknown_state_amended_witness :
    apStatesLookup (APInfoData.mk "7" "Gate" "3" "4" "STRANGE" "ODD").state_adm = none ∧
    apInfoStr ⟨"7", "Gate", "3", "4", "STRANGE", "ODD"⟩ = none :=
  ⟨by decide, c7_unknown_state_amended.2.1 ⟨"7", "Gate", "3", "4", "STRANGE", "ODD"⟩ (by decide)⟩

/-- C8.  For every byte stream consisting of a terminator-free payload
followed by the CRLF terminator, delivered in arbitrary chunk splits —
including the terminator split across separate reads, and unterminated
runs longer than the configured buffer limit, which only signal further
bounded reads (`LimitOverrunError` rounds), never an error —
`read_utf8` returns exactly the payload with the terminator stripped. -/
theorem c8_read_line_reassembles (limit : Nat) (chunks : List (List Nat)) (payload : List Nat)
    (h1 : chunks.flatten = payload ++ [13, 10]) (h2 : findSep payload = none) :
    (read_utf8 limit ⟨[], chunks⟩).1 = .ok payload := by
  have hline := readline_returns_line limit chunks payload h1 h2
  unfold read_utf8
  rcases hr : readline limit ⟨[], chunks⟩ with ⟨res, r2⟩
  rw [hr] at hline
  simp only at hline
  subst hline
  simp [stripCRLF_append]

/-- C8, witness: the payload [65, 66, 67] with the terminator split across
two separate reads and the whole unterminated run longer than the limit 1
(so both `LimitOverrunError` rounds and reassembly are exercised). -/
theorem c8_read_line_reassembles_witness :
    ([[65, 66, 67], [13], [10]] : List (List Nat)).flatten = [65, 66, 67] ++ [13, 10] ∧
    findSep [65, 66, 67] = none ∧
    (read_utf8 1 ⟨[], [[65, 66, 67], [13], [10]]⟩).1 = .ok [65, 66, 67] :=
  ⟨by decide, by decide, c8_read_line_reassembles 1 _ _ (by decide) (by decide)⟩

/-- C9, counterexample.  On a session that never logged in (the server
answers the first command with error 4, Not-Logged-In), `get_object_info`
still writes its command on the wire — the sent log is not empty — and the
failure is the server's mapped error raised from the reply, not a
synchronous client-side usage error. -/
theorem c9_command_sent_without_auth :
    (get_object_info ⟨["ERROR 4 not logged in"], []⟩ "1").2.sent =
      ["GETOBJECTINFO OBJECTID 1"] ∧
    (get_object_info ⟨["ERROR 4 not logged in"], []⟩ "1").1 =
      .error (.err .E_4_NOT_LOGGED_IN) := by
  refine ⟨by decide, by decide⟩

/-- The sent log of `pyQuery` always grows by exactly the issued command. -/
theorem pyQuery_sent (svc : Service) (q : String) :
    ((pyQuery svc q).2).sent = svc.sent ++ [q] := by
  unfold pyQuery
  cases svc.incoming with
  | nil => rfl
  | cons r rest =>
    by_cases h : strStarts r "ERROR" = true
    · simp only [h, if_true]
      cases hp : sigurExceptionParse r with
      | none => rfl
      | some d => cases ht : sigurErrorTable d.id <;> simp [ht]
    · simp [h]

/-- The sent log after `get_ap_info` always grows by exactly the issued
GETAPINFO command, whatever the reply. -/
theorem get_ap_info_sent (svc : Service) (ap_id : String) :
    ((get_ap_info svc ap_id).2).sent = svc.sent ++ ["GETAPINFO " ++ ap_id] := by
  unfold get_ap_info
  rcases hp : pyQuery svc ("GETAPINFO " ++ ap_id) with ⟨res, s2⟩
  have hs := pyQuery_sent svc ("GETAPINFO " ++ ap_id)
  rw [hp] at hs
  cases res with
  | error e => simp_all
  | ok reply =>
    split
    · simp_all
    · split <;> (try split) <;> simp_all

/-- The per-id loop of `get_ap_list` only appends to the sent log. -/
theorem apListLoop_sent (ids : List String) :
    ∀ (svc : Service) (acc : List (Int × APInfoData)),
      ∃ more, ((apListLoop svc ids acc).2).sent = svc.sent ++ more := by
  induction ids with
  | nil => exact fun svc acc => ⟨[], by simp [apListLoop]⟩
  | cons i rest ih =>
    intro svc acc
    unfold apListLoop
    rcases hinfo : get_ap_info svc i with ⟨ires, s3⟩
    have hsent3 : s3.sent = svc.sent ++ ["GETAPINFO " ++ i] := by
      have h2 := get_ap_info_sent svc i
      rw [hinfo] at h2
      exact h2
    cases ires with
    | error e => exact ⟨["GETAPINFO " ++ i], by simp [hsent3]⟩
    | ok oap =>
      cases oap with
      | none =>
        rcases ih s3 acc with ⟨more, hm⟩
        exact ⟨["GETAPINFO " ++ i] ++ more, by simp only []; rw [hm, hsent3]; simp⟩
      | some ap =>
        cases hpi : pyInt i with
        | none => exact ⟨["GETAPINFO " ++ i], by simp [hpi, hsent3]⟩
        | some n =>
          rcases ih s3 (acc ++ [(n, ap)]) with ⟨more, hm⟩
          exact ⟨["GETAPINFO " ++ i] ++ more, by simp only [hpi]; rw [hm, hsent3]; simp⟩

/-- C9, amended.  The client holds no authentication state and performs no
client-side check: every higher command is written to the wire
unconditionally, whatever the session history, and a not-logged-in failure
surfaces only as the server's error reply (see the counterexample), never
synchronously. -/
theorem c9_commands_always_sent (incoming sent : List String) (oid : String) :
    (get_object_info ⟨incoming, sent⟩ oid).2.sent =
      sent ++ ["GETOBJECTINFO OBJECTID " ++ oid] ∧
    (get_object_info_all ⟨incoming, sent⟩).2.sent = sent ++ ["GETOBJECTINFO ALL"] ∧
    (get_zone_info ⟨incoming, sent⟩).2.sent = sent ++ ["GETZONEINFO"] ∧
    (get_ap_info ⟨incoming, sent⟩ oid).2.sent = sent ++ ["GETAPINFO " ++ oid] ∧
    (∃ more, (get_ap_list ⟨incoming, sent⟩).2.sent = sent ++ ["GETAPLIST"] ++ more) := by
  refine ⟨?_, ?_, ?_, get_ap_info_sent ⟨incoming, sent⟩ oid, ?_⟩
  · unfold get_object_info
    rcases hp : pyQuery ⟨incoming, sent⟩ ("GETOBJECTINFO OBJECTID " ++ oid) with ⟨res, s2⟩
    have hs := pyQuery_sent ⟨incoming, sent⟩ ("GETOBJECTINFO OBJECTID " ++ oid)
    rw [hp] at hs
    cases res with
    | error e => simp_all
    | ok reply =>
      split
      · simp_all
      · split <;> (try split) <;> simp_all
  · unfold get_object_info_all
    rcases hp : pyQuery ⟨incoming, sent⟩ "GETOBJECTINFO ALL" with ⟨res, s2⟩
    have hs := pyQuery_sent ⟨incoming, sent⟩ "GETOBJECTINFO ALL"
    rw [hp] at hs
    cases res with
    | error e => simp_all
    | ok reply =>
      split
      · simp_all
      · split <;> (try split) <;> simp_all
  · unfold get_zone_info
    rcases hp : pyQuery ⟨incoming, sent⟩ "GETZONEINFO" with ⟨res, s2⟩
    have hs := pyQuery_sent ⟨incoming, sent⟩ "GETZONEINFO"
    rw [hp] at hs
    cases res with
    | error e => simp_all
    | ok reply =>
      split
      · simp_all
      · split <;> (try split) <;> simp_all
  · unfold get_ap_list
    rcases hp : pyQuery ⟨incoming, sent⟩ "GETAPLIST" with ⟨res, s2⟩
    have hs := pyQuery_sent ⟨incoming, sent⟩ "GETAPLIST"
    rw [hp] at hs
    cases res with
    | error e => exact ⟨[], by simp_all⟩
    | ok reply =>
      by_cases hg : reply = "APLIST EMPTY" ∨ strStarts reply "APLIST" = false
      · exact ⟨[], by simp_all⟩
      · rcases apListLoop_sent
            ((splitSeq " ".toList (dropLeading reply "APLIST ").toList).map List.asString)
            s2 [] with ⟨more, hm⟩
        refine ⟨more, ?_⟩
        simp only [hg, if_false]
        rcases hl : apListLoop s2
            ((splitSeq " ".toList (dropLeading reply "APLIST ").toList).map List.asString) []
          with ⟨lres, s3⟩
        rw [hl] at hm
        cases lres <;> simp_all

/-- C10.  After every successful parse of a record shape, each field of the
resulting data model holds the exact substring captured by the shape's
pattern, as a string: for the ACCESSPOLICY_REPLY with-employee shape the
int-annotated fields `result_id` and `emp_id` are decimal digit strings
occurring verbatim in the reply line (never converted to integers — the
embedding's field type `String` mirrors `self._model(**m.groupdict())`,
which passes the captured text to the dataclass unchanged); likewise the
error-envelope fields are verbatim substrings of the line, and at the
concrete reply the captured values are the digit strings "255" and "42". -/
theorem c10_fields_hold_captured_strings :
    (∀ (s : String) (d : AccessPolicyReplyEmpData),
      accessPolicyReplyEmpParse s = some d →
      (d.result_id.toList.all Char.isDigit = true ∧
        ∃ l r, s.toList = l ++ d.result_id.toList ++ r) ∧
      (d.emp_id.toList.all Char.isDigit = true ∧
        ∃ l r, s.toList = l ++ d.emp_id.toList ++ r)) ∧
    (∀ (s : String) (d : SigurExceptionData),
      sigurExceptionParse s = some d →
      (∃ l r, s.toList = l ++ d.id.toList ++ r) ∧
      (∃ l r, s.toList = l ++ d.text.toList ++ r)) ∧
    accessPolicyReplyEmpParse "ACCESSPOLICY_REPLY RESULT 255 EMPID 42 MASKVERPOLICY_OFF" =
      some ⟨"255", "42"⟩ := by
  refine ⟨?_, ?_, by decide⟩
  · intro s d h
    unfold accessPolicyReplyEmpParse at h
    cases hr : reSearch reAPReplyEmp s.toList with
    | none => rw [hr] at h; exact absurd h (by simp)
    | some caps =>
      rw [hr] at h
      simp only [Option.map_some', Option.some.injEq] at h
      subst h
      exact ⟨capsStr_spec _ _ groupsOK_reAPReplyEmp _ _ hr 0,
        capsStr_spec _ _ groupsOK_reAPReplyEmp _ _ hr 1⟩
  · intro s d h
    unfold sigurExceptionParse at h
    cases hr : reSearch reError s.toList with
    | none => rw [hr] at h; exact absurd h (by simp)
    | some caps =>
      rw [hr] at h
      simp only [Option.map_some', Option.some.injEq] at h
      subst h
      exact ⟨(capsStr_spec _ _ groupsOK_reError _ _ hr 0).2,
        (capsStr_spec _ _ groupsOK_reError _ _ hr 1).2⟩

/-- C10, witness at the concrete with-employee reply: the parsed fields are
the digit strings "255" and "42", substrings of the line. -/
theorem c10_fields_hold_captured_strings_witness :
    accessPolicyReplyEmpParse "ACCESSPOLICY_REPLY RESULT 255 EMPID 42 MASKVERPOLICY_OFF" =
      some ⟨"255", "42"⟩ ∧
    ((("255" : String).toList.all Char.isDigit = true ∧
      ∃ l r, ("ACCESSPOLICY_REPLY RESULT 255 EMPID 42 MASKVERPOLICY_OFF" : String).toList =
        l ++ ("255" : String).toList ++ r) ∧
     (("42" : String).toList.all Char.isDigit = true ∧
      ∃ l r, ("ACCESSPOLICY_REPLY RESULT 255 EMPID 42 MASKVERPOLICY_OFF" : String).toList =
        l ++ ("42" : String).toList ++ r)) :=
  ⟨by decide,
    c10_fields_hold_captured_strings.1 "ACCESSPOLICY_REPLY RESULT 255 EMPID 42 MASKVERPOLICY_OFF"
      ⟨"255", "42"⟩ (by decide)⟩

end PySigur
